import Mathlib

/-!
# Verification of the Gemipi real-time voice-assistant audio engine

Shallow embedding of the Python sources under `src/voice_assistant/`
(`audio.py`, `assistant.py`, `config.py`, `glados_effects.py`) and proofs
about them.  Machine 16-bit samples are modelled as `Int`, raw byte strings
as `List Nat` (each entry one byte), and Python floats as `ℚ` (exact
arithmetic; every claim settled here is decided by branch structure or by
integer/rational values where the float computation is exact at the inputs
used).  Python exceptions are modelled explicitly: a raising operation
returns an error value carrying the mutated object state.
-/

namespace Gemipi

/-- Python `collections.deque(maxlen = m)`: appending to a full deque drops
elements from the opposite end, so the deque always keeps the `m` most
recently appended elements. -/
def dequePush {α : Type} (maxlen : ℕ) (q : List α) (x : α) : List α :=
  let q2 := q ++ [x]
  q2.drop (q2.length - maxlen)

/-- Python exceptions relevant to the embedded code: `AttributeError`
(reading an instance attribute that was never assigned) and `ValueError`
(`np.frombuffer` on a byte string whose length is not a multiple of the
item size). -/
inductive PyErr where
  | attributeError
  | valueError
deriving DecidableEq, Repr

/-- One little-endian signed 16-bit sample from two bytes, as
`np.frombuffer(data, dtype=np.int16)` decodes it. -/
def int16OfBytes (lo hi : ℕ) : ℤ :=
  let u : ℤ := (lo % 256 : ℕ) + 256 * ((hi % 256 : ℕ) : ℤ)
  if u < 32768 then u else u - 65536

/-- Decode a byte string into its little-endian int16 samples
(consecutive byte pairs). -/
def bytesToInt16 : List ℕ → List ℤ
  | lo :: hi :: rest => int16OfBytes lo hi :: bytesToInt16 rest
  | _ => []

/-- State of `AcousticEchoCanceller` (audio.py lines 33-193).

`__init__` (lines 40-78) assigns only `_frame_size`, `_frame_bytes`, the
lock, the gating/energy fields, `_playback_queue` (a `deque(maxlen=50)`),
`_playback_buffer`, the timing-statistics fields and `_shutdown`.  The
gating/energy fields (`_playback_active`, `_playback_energy`,
`_silence_frames`, `_interrupt_threshold`, `_silence_threshold`,
`_silence_frames_needed`, `_energy_alpha`) and the timing-statistics
fields (`_process_times`, `_process_count`, `_stats_interval`) are never
read or written on any path reachable in `feed_playback` or `process`
(the statistics code at lines 163-177 sits after the raising filter
branch, see `AcousticEchoCanceller.process` below), so they are omitted
from the record.

Crucially, `__init__` does NOT assign `_fft_size`, `_ref_buffer`, `_W`,
`_P`, `_beta`, `_eps` or `_mu`, and no other method of the class (nor any
other code in the repository) assigns them either; in Python, reading any
of them raises `AttributeError`.  Accordingly the record has no such
fields and the code paths that read them are embedded as raising. -/
structure AEC where
  frame_size : ℕ
  frame_bytes : ℕ
  playback_queue : List (List ℚ)
  playback_buffer : List ℚ
  shutdown : Bool
deriving DecidableEq, Repr

/-- `AcousticEchoCanceller.__init__(frame_size, sample_rate, filter_length)`
(audio.py lines 40-78): `_frame_bytes = frame_size * 2`, empty playback
queue and accumulation buffer, shutdown flag clear.  `sample_rate` and
`filter_length` are not stored ("Not used" per the docstring). -/
def aecInit (frame_size : ℕ) : AEC :=
  { frame_size := frame_size
    frame_bytes := frame_size * 2
    playback_queue := []
    playback_buffer := []
    shutdown := false }

/-- The `while len(self._playback_buffer) >= self._frame_size:` loop of
`feed_playback` (audio.py lines 90-93), written with explicit fuel so
that it is structural (and hence kernel-evaluable): repeatedly slice off
a `frame_size`-sample chunk from the front of the buffer and append it
to the `deque(maxlen=50)` playback queue. -/
def drainLoop (fs : ℕ) : ℕ → List ℚ → List (List ℚ) →
    List ℚ × List (List ℚ)
  | 0, buf, q => (buf, q)
  | fuel + 1, buf, q =>
    if 0 < fs ∧ fs ≤ buf.length then
      drainLoop fs fuel (buf.drop fs) (dequePush 50 q (buf.take fs))
    else
      (buf, q)

/-- The drain loop started with fuel `buf.length`.  When `0 < fs` the
fuel never cuts the loop short: each iteration removes `fs ≥ 1` samples
from the buffer while consuming one unit of fuel, so `buf.length ≤ fuel`
is maintained and a fuel of `0` forces an empty buffer, on which the
Python loop guard `len(buffer) >= frame_size` fails as well.  (The Python
loop diverges when `frame_size = 0`; every theorem that touches this code
assumes `0 < frame_size`.) -/
def drainBuffer (fs : ℕ) (buf : List ℚ) (q : List (List ℚ)) :
    List ℚ × List (List ℚ) :=
  drainLoop fs buf.length buf q

/-- `AcousticEchoCanceller.feed_playback(data)` (audio.py lines 80-93):
decode the bytes as int16, scale by `1/32768`, append to the accumulation
buffer, then drain complete `frame_size`-sample chunks into the playback
queue.  `np.frombuffer` raises `ValueError` (before any state mutation)
when the byte length is odd. -/
def feed_playback (st : AEC) (data : List ℕ) : Except PyErr AEC :=
  if data.length % 2 ≠ 0 then
    .error .valueError
  else
    let samples := (bytesToInt16 data).map (fun (v : ℤ) => (v : ℚ) / 32768)
    let buf := st.playback_buffer ++ samples
    let res := drainBuffer st.frame_size buf st.playback_queue
    .ok { st with playback_buffer := res.1, playback_queue := res.2 }

/-- Result of a Python method call that may raise: either a normal return
value with the post-call object state, or a propagated exception with the
object state as mutated up to the raise point. -/
inductive ProcResult where
  | ok (out : List ℕ) (st : AEC)
  | raised (err : PyErr) (st : AEC)
deriving DecidableEq, Repr

/-- `AcousticEchoCanceller.process(mic_data)` (audio.py lines 95-181).

* Line 106: if `len(mic_data) != self._frame_bytes` or `self._shutdown`,
  return the input unchanged.
* Lines 114-117: under the lock, if the playback queue is empty, return
  the input unchanged (no state mutation on this path: the statistics
  code at lines 163-177 is after a `return`).
* Line 118: otherwise `popleft()` removes the head reference block; then
  line 120 reads `self._frame_size` (present) and line 121 reads
  `self._fft_size`, which `__init__` never assigned — `AttributeError`
  propagates out of `process`.  Lines 121-181 (the FDAF update, the
  non-finite-output guard at lines 159-161, the statistics, and the int16
  re-encoding) are unreachable.  The embedding therefore returns
  `raised .attributeError` with the queue head consumed. -/
def process (st : AEC) (mic_data : List ℕ) : ProcResult :=
  if mic_data.length ≠ st.frame_bytes ∨ st.shutdown then
    .ok mic_data st
  else
    match st.playback_queue with
    | [] => .ok mic_data st
    | _ :: rest => .raised .attributeError { st with playback_queue := rest }

/-- A sequence of `feed_playback` calls from a caller that survives
exceptions: a call that raises leaves the object state as it was (the
`ValueError` fires before any mutation). -/
def feedMany (st : AEC) (chunks : List (List ℕ)) : AEC :=
  chunks.foldl
    (fun s c => match feed_playback s c with
      | .ok s2 => s2
      | .error _ => s)
    st

/-- Reference-alignment invariant of the echo canceller: every queued
reference block holds exactly `frame_size` samples, and the pending
accumulation buffer holds strictly fewer than `frame_size` samples. -/
def aecRefInvariant (st : AEC) : Prop :=
  (∀ blk ∈ st.playback_queue, blk.length = st.frame_size) ∧
    st.playback_buffer.length < st.frame_size

/-- Python `int(q)` on a float/rational value: truncation toward zero,
i.e. the floor for nonnegative values and the ceiling for negative
values. -/
def pyInt (q : ℚ) : ℤ :=
  if 0 ≤ q then ⌊q⌋ else ⌈q⌉

/-- `resample_linear(data, from_rate, to_rate)` (audio.py lines 196-222),
over the decoded int16 samples.

* Equal rates: return the input unchanged.
* Empty input: return the input unchanged.
* Otherwise `ratio = to_rate / from_rate`,
  `new_length = int(len(samples) * ratio)` (Python `int`, i.e. truncation,
  embedded by `pyInt`), and for each output index `i`:
  `src_idx = i / ratio`, `idx = int(src_idx)`, `frac = src_idx - idx`;
  interpolate when `idx + 1 < len(samples)`, else hold the last sample;
  clamp to `[-32768, 32767]`.

The Python code computes `ratio` and the positions in binary floating
point; the embedding uses exact rationals.  Each theorem below either
holds for the exact arithmetic universally or is evaluated at small
inputs where the float computation is exact. -/
def resample_linear (samples : List ℤ) (from_rate to_rate : ℕ) : List ℤ :=
  if from_rate = to_rate then samples
  else if samples.isEmpty then samples
  else
    let ratio : ℚ := (to_rate : ℚ) / (from_rate : ℚ)
    let new_length := (pyInt ((samples.length : ℚ) * ratio)).toNat
    (List.range new_length).map (fun (i : ℕ) =>
      let src_idx : ℚ := (i : ℚ) / ratio
      let idx := (pyInt src_idx).toNat
      let frac : ℚ := src_idx - (idx : ℚ)
      let sample : ℤ :=
        if idx + 1 < samples.length then
          pyInt ((samples.getD idx 0 : ℚ) * (1 - frac)
            + (samples.getD (idx + 1) 0 : ℚ) * frac)
        else
          samples.getLastD 0
      max (-32768) (min 32767 sample))

/-- `np.round`: round half to even (banker's rounding), the IEEE-754
`roundTiesToEven` convention numpy implements. -/
def npRound (q : ℚ) : ℤ :=
  let f := ⌊q⌋
  if q - f < 1 / 2 then f
  else if q - f > 1 / 2 then f + 1
  else if f % 2 = 0 then f else f + 1

/-- `GLaDOSEffectsProcessor._apply_bitcrush(samples)` (glados_effects.py
lines 152-167) with bit depth `bits`: `levels = 2 ** bits`, then quantize
each normalized sample as `np.round(x * (levels / 2)) / (levels / 2)`.
Samples are modelled as exact rationals (the source works in float32). -/
def apply_bitcrush (bits : ℕ) (samples : List ℚ) : List ℚ :=
  let levels : ℚ := 2 ^ bits
  samples.map (fun x => (npRound (x * (levels / 2)) : ℚ) / (levels / 2))

/-- The producer-side hand-off of `AudioCapture._audio_callback`
(audio.py lines 238-251) into `self._buffer = deque(maxlen=100)`
(line 234): one `append` onto the bounded deque.  (The callback may first
transform the frame through the echo canceller; that does not affect the
buffer discipline modelled here.) -/
def capture_push {α : Type} (buffer : List α) (frame : α) : List α :=
  dequePush 100 buffer frame

/-- `AssistantState` (assistant.py lines 27-32). -/
inductive AssistantState where
  | LISTENING
  | ACTIVATED
  | RESPONDING
deriving DecidableEq, Repr

/-- `WakeWordConfig` (config.py lines 55-63) with its default values;
`timeout` is in seconds. -/
structure WakeWordConfig where
  enabled : Bool := true
  model_path : Option String := some "/home/gemipi/voice-assistant/glados.onnx"
  threshold : ℚ := 1 / 2
  timeout : ℚ := 30
  inference_framework : String := "onnx"
  activation_prompt : String := "Oh, du schon wieder. Was willst du?"
deriving DecidableEq, Repr

/-- One iteration of the `VoiceAssistant._check_timeout` watchdog loop
(assistant.py lines 198-207), after the 1-second sleep: the loop guard
`self._running and self._state != LISTENING` decides whether the body
runs at all; the body transitions to `LISTENING` exactly when the state
is `ACTIVATED` and `time.monotonic() - self._last_activity_time` has
reached the configured timeout. -/
def checkTimeoutStep (running : Bool) (state : AssistantState)
    (last_activity now timeout : ℚ) : AssistantState :=
  if ¬running ∨ state = .LISTENING then state
  else if state = .ACTIVATED ∧ now - last_activity ≥ timeout then .LISTENING
  else state

/-- What `VoiceAssistant._send_audio` (assistant.py lines 119-142)
observes when one captured chunk arrives: the `self._running` flag, the
current session state, the chunk itself, and the `time.monotonic()` value
that would be stored on a send. -/
structure SendObs where
  running : Bool
  state : AssistantState
  chunk : List ℕ
  now : ℚ
deriving DecidableEq, Repr

/-- The `_send_audio` loop (assistant.py lines 124-142) over a trace of
captured chunks, returning the chunks sent to the backend and the final
`self._last_activity_time`:
`break` when not running or the state is `LISTENING`; `continue`
(drop the chunk, touch nothing) when the state is `RESPONDING`;
otherwise send the chunk and set the last-activity clock. -/
def sendAudioRun : List SendObs → ℚ → List (List ℕ) × ℚ
  | [], la => ([], la)
  | o :: rest, la =>
    if ¬o.running ∨ o.state = .LISTENING then ([], la)
    else if o.state = .RESPONDING then sendAudioRun rest la
    else
      let r := sendAudioRun rest o.now
      (o.chunk :: r.1, r.2)

/-- One function call inside `response.tool_call.function_calls`
(assistant.py line 156). -/
structure FuncCall where
  name : String
  id : String
deriving DecidableEq, Repr

/-- `response.server_content`: an optional model turn (its parts'
`inline_data` payloads, `none` for a part without inline data) and the
turn-complete marker. -/
structure ServerContent where
  model_turn : Option (List (Option (List ℕ)))
  turn_complete : Bool
deriving DecidableEq, Repr

/-- One backend response as consumed by `VoiceAssistant._receive_audio`:
an optional tool call (its function-call list) and optional server
content. -/
structure LiveResponse where
  tool_call : Option (List FuncCall)
  server_content : Option ServerContent
deriving DecidableEq, Repr

/-- The acknowledgement `types.FunctionResponse(name, id, response)` sent
back over the channel for a tool call (assistant.py lines 161-171). -/
structure FunctionResponse where
  name : String
  id : String
  status : String
deriving DecidableEq, Repr

/-- The state visible to `VoiceAssistant._receive_audio` (assistant.py
lines 144-196): the `self._running` flag, the session state, the local
`end_session_requested` flag, the messages sent back over the channel,
the audio payloads handed to `play_sync`, the last-activity clock, and
whether the loop has exited (`break` / `return`). -/
structure RecvState where
  running : Bool
  state : AssistantState
  end_session_requested : Bool
  sent : List FunctionResponse
  played : List (List ℕ)
  last_activity : ℚ
  halted : Bool
deriving DecidableEq, Repr

/-- One iteration of the `async for response in session.receive()` body of
`_receive_audio` (assistant.py lines 150-188), with `now` the
`time.monotonic()` value read at line 188:

* line 151: `break` when not running or the state is `LISTENING`;
* lines 155-171: for each function call named `"end_session"`, set the
  local flag and send the acknowledgement `FunctionResponse` over the
  channel;
* lines 173-179: on a model turn, set the state to `RESPONDING` and play
  every part that carries inline data;
* lines 181-188: on turn-complete, go to `LISTENING` and `return` if the
  end-session flag is set, else go to `ACTIVATED` and reset the
  last-activity clock. -/
def receiveStep (s : RecvState) (resp : LiveResponse) (now : ℚ) : RecvState :=
  if s.halted then s
  else if ¬s.running ∨ s.state = .LISTENING then { s with halted := true }
  else
    let s1 :=
      match resp.tool_call with
      | none => s
      | some fcs =>
        fcs.foldl
          (fun acc fc =>
            if fc.name = "end_session" then
              { acc with
                end_session_requested := true
                sent := acc.sent ++ [⟨"end_session", fc.id, "session_ended"⟩] }
            else acc)
          s
    match resp.server_content with
    | none => s1
    | some sc =>
      let s2 :=
        match sc.model_turn with
        | none => s1
        | some parts =>
          { s1 with
            state := .RESPONDING
            played := s1.played ++ parts.filterMap id }
      if sc.turn_complete then
        if s2.end_session_requested then
          { s2 with state := .LISTENING, halted := true }
        else
          { s2 with state := .ACTIVATED, last_activity := now }
      else s2

/-- A backend response carrying only an `end_session` tool call with the
given call id. -/
def toolCallResponse (id : String) : LiveResponse :=
  { tool_call := some [⟨"end_session", id⟩], server_content := none }

/-- A backend response carrying only the turn-complete marker. -/
def turnCompleteResponse : LiveResponse :=
  { tool_call := none
    server_content := some { model_turn := none, turn_complete := true } }

/-! ## Helper lemmas -/

theorem dequePush_length {α : Type} (m : ℕ) (q : List α) (x : α) :
    (dequePush m q x).length = min (q.length + 1) m := by
  unfold dequePush
  simp only [List.length_drop, List.length_append, List.length_singleton]
  omega

theorem mem_dequePush {α : Type} {m : ℕ} {q : List α} {x y : α}
    (h : y ∈ dequePush m q x) : y ∈ q ∨ y = x := by
  unfold dequePush at h
  have h2 := List.mem_of_mem_drop h
  rcases List.mem_append.mp h2 with h3 | h3
  · exact Or.inl h3
  · exact Or.inr (List.mem_singleton.mp h3)

theorem drainLoop_spec (fs : ℕ) (hfs : 0 < fs) (fuel : ℕ) :
    ∀ (buf : List ℚ) (q : List (List ℚ)), buf.length ≤ fuel →
      (∀ blk ∈ q, blk.length = fs) →
      (drainLoop fs fuel buf q).1.length < fs ∧
        ∀ blk ∈ (drainLoop fs fuel buf q).2, blk.length = fs := by
  induction fuel with
  | zero =>
    intro buf q hb hq
    simp only [drainLoop]
    exact ⟨by omega, hq⟩
  | succ fuel ih =>
    intro buf q hb hq
    simp only [drainLoop]
    by_cases hguard : 0 < fs ∧ fs ≤ buf.length
    · rw [if_pos hguard]
      apply ih
      · simp only [List.length_drop]
        omega
      · intro blk hblk
        rcases mem_dequePush hblk with h3 | h3
        · exact hq blk h3
        · subst h3
          simp only [List.length_take]
          omega
    · rw [if_neg hguard]
      refine ⟨?_, hq⟩
      show buf.length < fs
      omega

theorem drainBuffer_spec (fs : ℕ) (hfs : 0 < fs) (buf : List ℚ)
    (q : List (List ℚ)) (hq : ∀ blk ∈ q, blk.length = fs) :
    (drainBuffer fs buf q).1.length < fs ∧
      ∀ blk ∈ (drainBuffer fs buf q).2, blk.length = fs :=
  drainLoop_spec fs hfs buf.length buf q le_rfl hq

theorem feed_playback_ok_inv (st : AEC) (data : List ℕ) (s2 : AEC)
    (hfs : 0 < st.frame_size)
    (hq : ∀ blk ∈ st.playback_queue, blk.length = st.frame_size)
    (hok : feed_playback st data = .ok s2) :
    s2.frame_size = st.frame_size ∧ aecRefInvariant s2 := by
  unfold feed_playback at hok
  split at hok
  · exact absurd hok (by simp)
  · have h2 := Except.ok.inj hok
    subst h2
    refine ⟨rfl, ?_, ?_⟩
    · intro blk hblk
      exact (drainBuffer_spec st.frame_size hfs _ _ hq).2 blk hblk
    · exact (drainBuffer_spec st.frame_size hfs _ _ hq).1

theorem feedMany_invariant (fs : ℕ) (hfs : 0 < fs) (chunks : List (List ℕ)) :
    ∀ st : AEC, st.frame_size = fs → aecRefInvariant st →
      (feedMany st chunks).frame_size = fs ∧ aecRefInvariant (feedMany st chunks) := by
  induction chunks with
  | nil => exact fun st h1 h2 => ⟨h1, h2⟩
  | cons c t ih =>
    intro st h1 h2
    show (feedMany _ t).frame_size = fs ∧ aecRefInvariant (feedMany _ t)
    cases hfp : feed_playback st c with
    | error e =>
      simp only [hfp]
      exact ih st h1 h2
    | ok s2 =>
      simp only [hfp]
      have h3 := feed_playback_ok_inv st c s2 (h1 ▸ hfs) h2.1 hfp
      exact ih s2 (h3.1.trans h1) h3.2

/-! ## Claims about `AcousticEchoCanceller` -/

/-- C10: after every sequence of `feed_playback` calls (any byte lengths,
including odd ones, which raise `ValueError` before mutating state),
every block in the reference queue holds exactly `frame_size` samples and
the pending accumulation buffer holds strictly fewer than `frame_size`
samples. -/
theorem feed_playback_alignment (fs : ℕ) (hfs : 0 < fs)
    (chunks : List (List ℕ)) :
    aecRefInvariant (feedMany (aecInit fs) chunks) :=
  (feedMany_invariant fs hfs chunks (aecInit fs) rfl
    ⟨fun blk hblk => absurd hblk (List.not_mem_nil blk), hfs⟩).2

theorem feed_playback_alignment_witness :
    aecRefInvariant (feedMany (aecInit 2) [[0, 0], [1, 0, 2, 0, 3, 0]]) :=
  feed_playback_alignment 2 (by norm_num) [[0, 0], [1, 0, 2, 0, 3, 0]]

/-- C6: whenever no reference block is queued, `process` returns the
input unchanged (and leaves the canceller state untouched), for every
microphone input. -/
theorem process_passthrough_no_reference (st : AEC) (mic : List ℕ)
    (hq : st.playback_queue = []) :
    process st mic = .ok mic st := by
  unfold process
  split
  · rfl
  · rw [hq]

theorem process_passthrough_no_reference_witness :
    process (aecInit 1024) [0, 0] = .ok [0, 0] (aecInit 1024) :=
  process_passthrough_no_reference (aecInit 1024) [0, 0] rfl

/-- C1 (code bug): on a frame of exactly `frame_bytes` bytes with a
reference block queued and the shutdown flag clear, `process` does not
perform the FDAF update and return an echo-cancelled frame; it consumes
the queued reference block and then raises `AttributeError`, because
line 121 of audio.py reads `self._fft_size`, which `__init__` never
assigns (nor `_ref_buffer`, `_W`, `_P`, `_beta`, `_eps`, `_mu`). -/
theorem process_with_reference_raises (st : AEC) (mic : List ℕ)
    (r : List ℚ) (rest : List (List ℚ))
    (hlen : mic.length = st.frame_bytes) (hsd : st.shutdown = false)
    (hq : st.playback_queue = r :: rest) :
    process st mic
      = .raised .attributeError { st with playback_queue := rest } := by
  unfold process
  rw [hq]
  simp [hlen, hsd]

theorem feedMany_example :
    feedMany (aecInit 1) [[0, 0]]
      = { frame_size := 1, frame_bytes := 2, playback_queue := [[0]],
          playback_buffer := [], shutdown := false } := by
  norm_num [feedMany, feed_playback, aecInit, bytesToInt16, int16OfBytes,
    drainBuffer, drainLoop, dequePush]

theorem process_with_reference_raises_witness :
    process (feedMany (aecInit 1) [[0, 0]]) [0, 0]
      = .raised .attributeError
          { feedMany (aecInit 1) [[0, 0]] with playback_queue := [] } :=
  process_with_reference_raises (feedMany (aecInit 1) [[0, 0]]) [0, 0]
    [0] [] (by rw [feedMany_example]; rfl) (by rw [feedMany_example])
    (by rw [feedMany_example])

/-- C7 (code bug): every call to `process` either passes the microphone
bytes through unchanged or propagates an `AttributeError` out of the
filtering path.  The numerical-safety guard of audio.py lines 159-161
(discard non-finite filter output and fall back to the original input) is
unreachable, so an error in the filtering path IS propagated, contrary to
the claim that it never is. -/
theorem process_passthrough_or_raises (st : AEC) (mic : List ℕ) :
    process st mic = .ok mic st ∨
      ∃ rest, process st mic
        = .raised .attributeError { st with playback_queue := rest } := by
  unfold process
  split
  · exact Or.inl rfl
  · cases hq : st.playback_queue with
    | nil => exact Or.inl rfl
    | cons r rest => exact Or.inr ⟨rest, rfl⟩

/-! ## Claims about the capture frame bus -/

theorem foldl_capture_push_length_le {α : Type} (frames : List α) :
    ∀ buf : List α, buf.length ≤ 100 →
      (frames.foldl capture_push buf).length ≤ 100 := by
  induction frames with
  | nil => exact fun buf h => h
  | cons a t ih =>
    intro buf h
    apply ih
    rw [capture_push, dequePush_length]
    omega

/-- C2: the hardware-callback hand-off into the `deque(maxlen=100)`
capture buffer keeps the buffer at or below capacity after any sequence
of pushes, and a push onto a full buffer drops exactly the oldest queued
frame, keeps the size at 100, and retains the newest frame at the back. -/
theorem capture_push_spec {α : Type} (frames : List α) (f : α)
    (hfull : (frames.foldl capture_push ([] : List α)).length = 100) :
    (frames.foldl capture_push ([] : List α)).length ≤ 100 ∧
      capture_push (frames.foldl capture_push ([] : List α)) f
          = (frames.foldl capture_push ([] : List α)).tail ++ [f] ∧
      (capture_push (frames.foldl capture_push ([] : List α)) f).length
          = 100 ∧
      (capture_push (frames.foldl capture_push ([] : List α)) f).getLast?
          = some f := by
  set buf := frames.foldl capture_push ([] : List α) with hbuf
  have hle : buf.length ≤ 100 :=
    foldl_capture_push_length_le frames [] (by simp)
  have hdrop : capture_push buf f = buf.tail ++ [f] := by
    rw [capture_push, dequePush]
    have h1 : (buf ++ [f]).length - 100 = 1 := by
      simp only [List.length_append, List.length_singleton]
      omega
    rw [h1, List.drop_append_of_le_length (by omega), List.drop_one]
  refine ⟨hle, hdrop, ?_, ?_⟩
  · rw [capture_push, dequePush_length]
    omega
  · rw [hdrop]
    exact List.getLast?_concat _

set_option maxRecDepth 4000 in
theorem capture_push_spec_witness :
    ((List.range 100).foldl capture_push ([] : List ℕ)).length ≤ 100 ∧
      capture_push ((List.range 100).foldl capture_push ([] : List ℕ)) 7
          = ((List.range 100).foldl capture_push ([] : List ℕ)).tail ++ [7] ∧
      (capture_push ((List.range 100).foldl capture_push ([] : List ℕ)) 7).length
          = 100 ∧
      (capture_push ((List.range 100).foldl capture_push ([] : List ℕ)) 7).getLast?
          = some 7 :=
  capture_push_spec (List.range 100) 7 (by decide)

/-! ## Claims about the session state machine -/

/-- C5: one watchdog iteration transitions `ACTIVATED` to `LISTENING`
exactly when the elapsed time since the last activity has reached the
configured timeout, performs no transition from `RESPONDING`, and the
configured default timeout is 30 seconds. -/
theorem check_timeout_spec (la now tmo la2 now2 tmo2 : ℚ)
    (h : now - la ≥ tmo) :
    checkTimeoutStep true .ACTIVATED la now tmo = .LISTENING ∧
      checkTimeoutStep true .RESPONDING la2 now2 tmo2 = .RESPONDING ∧
      ({} : WakeWordConfig).timeout = 30 := by
  refine ⟨?_, ?_, rfl⟩
  · unfold checkTimeoutStep
    simp [h]
  · unfold checkTimeoutStep
    simp

theorem check_timeout_spec_witness :
    checkTimeoutStep true .ACTIVATED 0 30 30 = .LISTENING ∧
      checkTimeoutStep true .RESPONDING 0 100 30 = .RESPONDING ∧
      ({} : WakeWordConfig).timeout = 30 :=
  check_timeout_spec 0 30 30 0 100 30 (by norm_num)

/-- C4: a captured chunk that arrives while the assistant is running and
the state is `RESPONDING` has no effect on the send loop: removing it
from the trace changes neither the chunks sent to the backend nor the
final last-activity clock — it is dropped at the source and the clock is
not updated for it. -/
theorem send_audio_drops_responding (pre post : List SendObs) (o : SendObs)
    (la : ℚ) (hrun : o.running = true) (hst : o.state = .RESPONDING) :
    sendAudioRun (pre ++ o :: post) la = sendAudioRun (pre ++ post) la := by
  induction pre generalizing la with
  | nil =>
    simp only [List.nil_append]
    rw [sendAudioRun]
    simp [hrun, hst]
  | cons p t ih =>
    simp only [List.cons_append]
    rw [sendAudioRun, sendAudioRun]
    by_cases h1 : ¬p.running ∨ p.state = .LISTENING
    · rw [if_pos h1, if_pos h1]
    · rw [if_neg h1, if_neg h1]
      by_cases h2 : p.state = .RESPONDING
      · rw [if_pos h2, if_pos h2, ih]
      · rw [if_neg h2, if_neg h2, ih]

theorem send_audio_drops_responding_witness :
    sendAudioRun [⟨true, .RESPONDING, [1, 2], 5⟩] 0 = sendAudioRun [] 0 :=
  send_audio_drops_responding [] [] ⟨true, .RESPONDING, [1, 2], 5⟩ 0 rfl rfl

theorem receiveStep_toolCall (s : RecvState) (id : String) (now : ℚ)
    (hrun : s.running = true) (hst : s.state = .RESPONDING)
    (hh : s.halted = false) :
    receiveStep s (toolCallResponse id) now
      = { s with
          end_session_requested := true
          sent := s.sent ++ [⟨"end_session", id, "session_ended"⟩] } := by
  unfold receiveStep toolCallResponse
  simp [hrun, hst, hh]

theorem receiveStep_turnComplete_requested (s : RecvState) (now : ℚ)
    (hrun : s.running = true) (hst : s.state ≠ .LISTENING)
    (hh : s.halted = false) (hreq : s.end_session_requested = true) :
    receiveStep s turnCompleteResponse now
      = { s with state := .LISTENING, halted := true } := by
  unfold receiveStep turnCompleteResponse
  simp [hrun, hst, hh, hreq]

/-- C3: from `RESPONDING`, an `end_session` tool call followed by a
turn-complete marker drives the receive loop to `LISTENING` and halts it,
and the acknowledgement `FunctionResponse` is already on the channel
after the tool-call step — before the transition to `LISTENING`
completes — with no further message added by the transition itself. -/
theorem receive_end_session_ack_before_listening (s : RecvState)
    (id : String) (now1 now2 : ℚ) (hrun : s.running = true)
    (hst : s.state = .RESPONDING) (hh : s.halted = false) :
    (receiveStep s (toolCallResponse id) now1).state = .RESPONDING ∧
      (receiveStep s (toolCallResponse id) now1).sent
          = s.sent ++ [⟨"end_session", id, "session_ended"⟩] ∧
      (receiveStep (receiveStep s (toolCallResponse id) now1)
            turnCompleteResponse now2).state = .LISTENING ∧
      (receiveStep (receiveStep s (toolCallResponse id) now1)
            turnCompleteResponse now2).sent
          = s.sent ++ [⟨"end_session", id, "session_ended"⟩] ∧
      (receiveStep (receiveStep s (toolCallResponse id) now1)
            turnCompleteResponse now2).halted = true := by
  rw [receiveStep_toolCall s id now1 hrun hst hh]
  rw [receiveStep_turnComplete_requested
    { s with
      end_session_requested := true
      sent := s.sent ++ [⟨"end_session", id, "session_ended"⟩] }
    now2 hrun (by simp [hst]) hh rfl]
  exact ⟨hst, rfl, rfl, rfl, rfl⟩

theorem receive_end_session_witness :
    (receiveStep ⟨true, .RESPONDING, false, [], [], 0, false⟩
        (toolCallResponse "call1") 1).state = .RESPONDING ∧
      (receiveStep ⟨true, .RESPONDING, false, [], [], 0, false⟩
          (toolCallResponse "call1") 1).sent
        = [] ++ [⟨"end_session", "call1", "session_ended"⟩] ∧
      (receiveStep (receiveStep ⟨true, .RESPONDING, false, [], [], 0, false⟩
            (toolCallResponse "call1") 1) turnCompleteResponse 2).state
        = .LISTENING ∧
      (receiveStep (receiveStep ⟨true, .RESPONDING, false, [], [], 0, false⟩
            (toolCallResponse "call1") 1) turnCompleteResponse 2).sent
        = [] ++ [⟨"end_session", "call1", "session_ended"⟩] ∧
      (receiveStep (receiveStep ⟨true, .RESPONDING, false, [], [], 0, false⟩
            (toolCallResponse "call1") 1) turnCompleteResponse 2).halted
        = true :=
  receive_end_session_ack_before_listening
    ⟨true, .RESPONDING, false, [], [], 0, false⟩ "call1" 1 2 rfl rfl rfl

/-! ## Claims about the resampler -/

theorem pyInt_natCast (n : ℕ) : pyInt (n : ℚ) = n := by
  unfold pyInt
  rw [if_pos (by positivity), Int.floor_natCast]

/-- C8 (as amended): `resample_linear` on `n` samples returns exactly
`int(n * to_rate/from_rate)` samples — the Python `int` truncation,
which for this nonnegative value is the floor — not the rounding the
original claim states. -/
theorem resample_linear_length (samples : List ℤ) (f t : ℕ) (hf : 0 < f) :
    (resample_linear samples f t).length
      = (pyInt ((samples.length : ℚ) * ((t : ℚ) / (f : ℚ)))).toNat := by
  unfold resample_linear
  split
  · rename_i h
    subst h
    rw [div_self (Nat.cast_ne_zero.mpr hf.ne'), mul_one, pyInt_natCast,
      Int.toNat_natCast]
  · split
    · rename_i h2
      rw [List.isEmpty_iff] at h2
      subst h2
      norm_num [pyInt]
    · simp only [List.length_map, List.length_range]

theorem resample_linear_length_witness :
    (resample_linear [5] 2 3).length
      = (pyInt ((([5] : List ℤ).length : ℚ) * ((3 : ℚ) / (2 : ℚ)))).toNat :=
  resample_linear_length [5] 2 3 (by norm_num)

/-- C8 counterexample: one sample resampled from rate 3 to rate 5 yields
`int(1 * 5/3) = 1` output sample, whereas `round(1 * 5/3) = 2`; so the
output length is not `round(n * to_rate/from_rate)`. -/
theorem resample_linear_length_ne_round :
    (resample_linear [0] 3 5).length = 1 ∧
      round ((([0] : List ℤ).length : ℚ) * ((5 : ℚ) / (3 : ℚ))) = 2 := by
  constructor
  · have h5 : (resample_linear [0] 3 5).length
        = (pyInt ((1 : ℚ) * (5 / 3))).toNat := by
      unfold resample_linear
      norm_num
    rw [h5]
    norm_num [pyInt]
  · norm_num [round_eq]

/-! ## Claims about the effects processor -/

theorem npRound_intCast (m : ℤ) : npRound (m : ℚ) = m := by
  unfold npRound
  norm_num [Int.floor_intCast]

/-- C9: the bitcrush quantization stage is idempotent — applying it
twice with the same bit depth equals applying it once, for every list of
normalized samples and every bit depth. -/
theorem apply_bitcrush_idempotent (bits : ℕ) (samples : List ℚ) :
    apply_bitcrush bits (apply_bitcrush bits samples)
      = apply_bitcrush bits samples := by
  have hne : ((2 : ℚ) ^ bits / 2) ≠ 0 := by positivity
  simp only [apply_bitcrush, List.map_map]
  rw [List.map_eq_map_iff]
  intro x hx
  simp only [Function.comp_apply]
  rw [div_mul_cancel₀ _ hne, npRound_intCast]

end Gemipi
